import Mathlib

/-!
Shallow embedding of the eco-goinfra builder code under verification:
`pkg/ibgu/ibgu.go` (IbguBuilder and its operations), the SR-IOV policy
list/cleanup helpers (`ListPolicy`, `CleanAllNetworkNodePolicies`) and
`pkg/sriov-fec/nodeconfig.go` (NewNodeConfigBuilder).

Cluster I/O is modelled by explicit state passing: a `World` value holds the
stored objects, injectable request errors, and a log of the requests issued.
Go errors are modelled by `GoError`; a Go `error` variable (which may be nil)
is an `Option GoError`.  Go pointers that may be nil are modelled by `Option`.
-/

/-- Go errors as seen by this code: the distinguished k8s "not found" error and
ordinary errors built from a message (`fmt.Errorf`). -/
inductive GoError where
  | notFound
  | errorf (msg : String)
deriving DecidableEq, Repr

/-- Model of `k8serrors.IsNotFound` applied to a possibly-nil Go error. -/
def IsNotFound : Option GoError → Bool
  | some GoError.notFound => true
  | _ => false

/-- Model of `metav1.ObjectMeta` (the fields this code uses). -/
structure ObjectMeta where
  Name : String
  Namespace : String
deriving DecidableEq, Repr

/-- Model of `lcav1.SeedImageRef`. -/
structure SeedImageRef where
  Image : String
  Version : String
deriving DecidableEq, Repr

/-- Model of `lcav1.ConfigMapRef`. -/
structure ConfigMapRef where
  Name : String
  Namespace : String
deriving DecidableEq, Repr

/-- Model of `metav1.LabelSelector` (the fields this code uses); a Go
`map[string]string` is modelled as an association list. -/
structure LabelSelector where
  MatchLabels : List (String × String)
deriving DecidableEq, Repr

/-- Model of `v1alpha1.RolloutStrategy`. -/
structure RolloutStrategy where
  MaxConcurrency : Int
  Timeout : Int
deriving DecidableEq, Repr

/-- Model of `v1alpha1.PlanItem`. -/
structure PlanItem where
  Actions : List String
  Rollout : RolloutStrategy
deriving DecidableEq, Repr

/-- Model of `lcav1.ImageBasedUpgradeSpec` (the fields this code uses). -/
structure ImageBasedUpgradeSpec where
  SeedRef : SeedImageRef
  OADPContent : List ConfigMapRef
deriving DecidableEq, Repr

/-- Model of `v1alpha1.ImageBasedGroupUpgradeSpec`. -/
structure ImageBasedGroupUpgradeSpec where
  IBUSpec : ImageBasedUpgradeSpec
  Plan : List PlanItem
  ClusterLabelSelectors : List LabelSelector
deriving DecidableEq, Repr

/-- Model of `v1alpha1.ImageBasedGroupUpgrade`. -/
structure ImageBasedGroupUpgrade where
  metadata : ObjectMeta
  spec : ImageBasedGroupUpgradeSpec
deriving DecidableEq, Repr

/-- A request issued to the cluster API client; the delete payload is the
possibly-nil pointer the caller passed. -/
inductive Request where
  | get (key : String × String)
  | create (obj : Option ImageBasedGroupUpgrade)
  | delete (obj : Option ImageBasedGroupUpgrade)
deriving DecidableEq, Repr

/-- State of the cluster as seen through the API client, plus instrumentation:
`objects` maps (name, namespace) keys to stored objects; `getErr`, `createErr`
and `deleteErr` inject transport errors; `log` records every request issued.
The `lastSuccessfulRead`, `lastExistsRead` and `lastCreateSubmit` fields are
ghost state used only to phrase history invariants: the value returned by the
most recent successful client read, the value stored by the most recent
successful fetch inside `Exists`, and the definition submitted by the most
recent successful create. -/
structure World where
  objects : List ((String × String) × ImageBasedGroupUpgrade)
  getErr : Option GoError
  createErr : Option GoError
  deleteErr : Option GoError
  log : List Request
  lastSuccessfulRead : Option ImageBasedGroupUpgrade
  lastExistsRead : Option ImageBasedGroupUpgrade
  lastCreateSubmit : Option ImageBasedGroupUpgrade
deriving DecidableEq, Repr

/-- Look a key up in the stored-object list. -/
def lookupObj : List ((String × String) × ImageBasedGroupUpgrade) →
    (String × String) → Option ImageBasedGroupUpgrade
  | [], _ => none
  | (k, o) :: rest, key => if k = key then some o else lookupObj rest key

/-- Remove every entry with the given key from the stored-object list. -/
def removeObj : List ((String × String) × ImageBasedGroupUpgrade) →
    (String × String) → List ((String × String) × ImageBasedGroupUpgrade)
  | [], _ => []
  | (k, o) :: rest, key =>
      if k = key then removeObj rest key else (k, o) :: removeObj rest key

/-- Model of the client's point `Get`: logs the request, then returns the
injected error if any, the stored object if present, or a not-found error. -/
def clientGet (w : World) (key : String × String) :
    (Option ImageBasedGroupUpgrade × Option GoError) × World :=
  let w1 := { w with log := w.log ++ [Request.get key] }
  match w.getErr with
  | some e => ((none, some e), w1)
  | none =>
    match lookupObj w.objects key with
    | some o => ((some o, none), { w1 with lastSuccessfulRead := some o })
    | none => ((none, some GoError.notFound), w1)

/-- Model of the client's `Create`: logs the request, then returns the injected
error if any, an error for a nil payload or an already-present key, and
otherwise stores the object. -/
def clientCreate (w : World) (obj : Option ImageBasedGroupUpgrade) :
    Option GoError × World :=
  let w1 := { w with log := w.log ++ [Request.create obj] }
  match w.createErr with
  | some e => (some e, w1)
  | none =>
    match obj with
    | none => (some (GoError.errorf "nil object passed to create"), w1)
    | some o =>
      if (lookupObj w.objects (o.metadata.Name, o.metadata.Namespace)).isSome then
        (some (GoError.errorf "already exists"), w1)
      else
        (none, { w1 with
                   objects := w.objects ++ [((o.metadata.Name, o.metadata.Namespace), o)],
                   lastCreateSubmit := some o })

/-- Model of the client's `Delete`: logs the request (with its possibly-nil
payload), then returns the injected error if any, an error for a nil payload
or an absent key, and otherwise removes the object. -/
def clientDelete (w : World) (obj : Option ImageBasedGroupUpgrade) :
    Option GoError × World :=
  let w1 := { w with log := w.log ++ [Request.delete obj] }
  match w.deleteErr with
  | some e => (some e, w1)
  | none =>
    match obj with
    | none => (some (GoError.errorf "nil object passed to delete"), w1)
    | some o =>
      if (lookupObj w.objects (o.metadata.Name, o.metadata.Namespace)).isSome then
        (none, { w1 with objects := removeObj w.objects (o.metadata.Name, o.metadata.Namespace) })
      else
        (some GoError.notFound, w1)

/-- Model of `IbguBuilder`: `Definition` and `Object` are possibly-nil
pointers; the non-nil-ness of the `apiClient` interface is a Bool (the client's
behaviour itself lives in `World`). -/
structure IbguBuilder where
  Definition : Option ImageBasedGroupUpgrade
  Object : Option ImageBasedGroupUpgrade
  apiClient : Bool
  errorMsg : String
deriving DecidableEq, Repr

/-- Model of `msg.UndefinedCrdObjectErrString` (external helper; its exact text
is not fixed by the sources in scope). -/
def undefinedCrdObjectErrString (crd : String) : String :=
  "can not redefine the undefined " ++ crd

/-- Model of `IbguBuilder.validate` on a possibly-nil receiver: layered checks
in the source's fixed order — nil builder, nil definition, nil client,
non-empty deferred error slot. -/
def validateOpt : Option IbguBuilder → Bool × Option GoError
  | none => (false, some (GoError.errorf "error: received nil ibgu builder"))
  | some b =>
    if b.Definition.isNone then
      (false, some (GoError.errorf (undefinedCrdObjectErrString "ibgu")))
    else if b.apiClient = false then
      (false, some (GoError.errorf "ibgu builder cannot have nil apiClient"))
    else if b.errorMsg ≠ "" then
      (false, some (GoError.errorf b.errorMsg))
    else
      (true, none)

/-- Model of `IbguBuilder.validate` on a non-nil receiver. -/
def IbguBuilder.validate (b : IbguBuilder) : Bool × Option GoError :=
  validateOpt (some b)

/-- Model of `clients.Settings` as far as `NewIbguBuilder` observes it: whether
attaching the v1alpha1 scheme fails. -/
structure ClientsSettings where
  attachSchemeFails : Bool
deriving DecidableEq, Repr

/-- Model of `NewIbguBuilder`: nil for a nil client or a scheme-attach failure;
otherwise a builder whose fresh definition carries the name and namespace, with
the deferred error slot set (first check wins, by early return) when the name
or the namespace is empty. -/
def NewIbguBuilder (apiClient : Option ClientsSettings) (name nsname : String) :
    Option IbguBuilder :=
  match apiClient with
  | none => none
  | some s =>
    if s.attachSchemeFails then
      none
    else
      let builder : IbguBuilder :=
        { Definition := some
            { metadata := { Name := name, Namespace := nsname },
              spec :=
                { IBUSpec := { SeedRef := { Image := "", Version := "" }, OADPContent := [] },
                  Plan := [],
                  ClusterLabelSelectors := [] } },
          Object := none,
          apiClient := true,
          errorMsg := "" }
      if name = "" then
        some { builder with errorMsg := "ibgu 'name' cannot be empty" }
      else if nsname = "" then
        some { builder with errorMsg := "ibgu 'nsname' cannot be empty" }
      else
        some builder

/-- Model of `IbguBuilder.WithClusterLabelSelectors`. -/
def IbguBuilder.WithClusterLabelSelectors (b : IbguBuilder)
    (labels : List (String × String)) : IbguBuilder :=
  if (IbguBuilder.validate b).1 = false then b
  else if labels.length = 0 then
    { b with errorMsg := "can not apply empty cluster label selectors to the IBGU" }
  else
    { b with Definition := b.Definition.map (fun d =>
        { d with spec := { d.spec with
            ClusterLabelSelectors := [{ MatchLabels := labels }] } }) }

/-- Model of `IbguBuilder.WithSeedImageRef`: replaces the whole IBUSpec with a
fresh one carrying only the seed image reference. -/
def IbguBuilder.WithSeedImageRef (b : IbguBuilder) (seedImage seedVersion : String) :
    IbguBuilder :=
  if (IbguBuilder.validate b).1 = false then b
  else if seedImage = "" then
    { b with errorMsg := "seedImage cannot be empty" }
  else if seedVersion = "" then
    { b with errorMsg := "seedVersion cannot be empty" }
  else
    { b with Definition := b.Definition.map (fun d =>
        { d with spec := { d.spec with
            IBUSpec := { SeedRef := { Image := seedImage, Version := seedVersion },
                         OADPContent := [] } } }) }

/-- Model of `IbguBuilder.WithOadpContent`: appends one ConfigMap reference. -/
def IbguBuilder.WithOadpContent (b : IbguBuilder) (name nspace : String) : IbguBuilder :=
  if (IbguBuilder.validate b).1 = false then b
  else if name = "" then
    { b with errorMsg := "oadp content name cannot be empty" }
  else if nspace = "" then
    { b with errorMsg := "oadp content namespace cannot be empty" }
  else
    { b with Definition := b.Definition.map (fun d =>
        { d with spec := { d.spec with
            IBUSpec := { d.spec.IBUSpec with
              OADPContent := d.spec.IBUSpec.OADPContent ++
                [{ Name := name, Namespace := nspace }] } } }) }

/-- Model of `IbguBuilder.WithPlan`: appends one plan item. -/
def IbguBuilder.WithPlan (b : IbguBuilder) (actions : List String)
    (maxConcurrency timeout : Int) : IbguBuilder :=
  if (IbguBuilder.validate b).1 = false then b
  else if actions.length = 0 then
    { b with errorMsg := "plan actions cannot be empty" }
  else if maxConcurrency ≤ 0 then
    { b with errorMsg := "maxConcurrency must be greater than 0" }
  else if timeout ≤ 0 then
    { b with errorMsg := "timeout must be greater than 0" }
  else
    { b with Definition := b.Definition.map (fun d =>
        { d with spec := { d.spec with
            Plan := d.spec.Plan ++
              [{ Actions := actions,
                 Rollout := { MaxConcurrency := maxConcurrency, Timeout := timeout } }] } }) }

/-- Model of `IbguBuilder.Get`: validate, then a point lookup keyed by the
definition's name and namespace; nil and the error on failure. -/
def IbguBuilder.Get (b : IbguBuilder) (w : World) :
    (Option ImageBasedGroupUpgrade × Option GoError) × World :=
  match IbguBuilder.validate b with
  | (false, err) => ((none, err), w)
  | (true, _) =>
    match b.Definition with
    | none => ((none, some (GoError.errorf "nil pointer dereference")), w)
    | some d =>
      match clientGet w (d.metadata.Name, d.metadata.Namespace) with
      | ((_, some e), w1) => ((none, some e), w1)
      | ((obj, none), w1) => ((obj, none), w1)

/-- Model of `IbguBuilder.Exists`: validate (false on failure, swallowing the
error), store the Get result into Object, and report `err == nil ||
!IsNotFound(err)`.  The `lastExistsRead` ghost update records a successful
fetch. -/
def IbguBuilder.Exists (b : IbguBuilder) (w : World) : (IbguBuilder × Bool) × World :=
  if (IbguBuilder.validate b).1 = false then ((b, false), w)
  else
    match b.Get w with
    | ((obj, err), w1) =>
      let w2 := if err.isNone then { w1 with lastExistsRead := obj } else w1
      (({ b with Object := obj }, err.isNone || !(IsNotFound err)), w2)

/-- Model of `IbguBuilder.Create`: validate; if `Exists()` is false, issue a
create with the Definition and on success set Object to the Definition. -/
def IbguBuilder.Create (b : IbguBuilder) (w : World) :
    (IbguBuilder × Option GoError) × World :=
  match IbguBuilder.validate b with
  | (false, err) => ((b, err), w)
  | (true, _) =>
    match b.Exists w with
    | ((b1, true), w1) => ((b1, none), w1)
    | ((b1, false), w1) =>
      match clientCreate w1 b1.Definition with
      | (none, w2) => (({ b1 with Object := b1.Definition }, none), w2)
      | (some e, w2) => ((b1, some e), w2)

/-- Model of `IbguBuilder.Delete`: validate; if not existing, clear Object and
return nil; otherwise delete the last-observed Object, clearing Object only on
success. -/
def IbguBuilder.Delete (b : IbguBuilder) (w : World) :
    (IbguBuilder × Option GoError) × World :=
  match IbguBuilder.validate b with
  | (false, err) => ((b, err), w)
  | (true, _) =>
    match b.Exists w with
    | ((b1, false), w1) => (({ b1 with Object := none }, none), w1)
    | ((b1, true), w1) =>
      match clientDelete w1 b1.Object with
      | (some e, w2) => ((b1, some e), w2)
      | (none, w2) => (({ b1 with Object := none }, none), w2)

/-- Model of `SriovNetworkNodePolicy` (the fields this code uses: the object
metadata's name and namespace). -/
structure SriovNetworkNodePolicy where
  Name : String
  Namespace : String
deriving DecidableEq, Repr

/-- A heap of policy cells: the Go code takes the address of a fresh per-item
copy (`copiedNetworkNodePolicy := policy`), so pointers are modelled as indices
into this append-only cell list. -/
structure SriovHeap where
  cells : List SriovNetworkNodePolicy
deriving DecidableEq, Repr

/-- Allocate a fresh cell holding `p`, returning its address. -/
def allocCell (h : SriovHeap) (p : SriovNetworkNodePolicy) : Nat × SriovHeap :=
  (h.cells.length, ⟨h.cells ++ [p]⟩)

/-- Read a cell; `none` models dereferencing a dangling or nil pointer. -/
def readCell (h : SriovHeap) (a : Nat) : Option SriovNetworkNodePolicy :=
  h.cells.get? a

/-- Model of `PolicyBuilder` (the fields this code uses): `Object` and
`Definition` are pointers into the policy heap. -/
structure PolicyBuilder where
  apiClient : Bool
  Object : Nat
  Definition : Nat
deriving DecidableEq, Repr

/-- State of the SR-IOV side of the cluster: policies per namespace in server
order, an injectable list error, the set of policy names whose deletion fails,
and logs of the list and delete requests issued. -/
structure SriovWorld where
  policies : List (String × List SriovNetworkNodePolicy)
  listErr : Option GoError
  deleteFail : List String
  listLog : List String
  deleteLog : List String
deriving DecidableEq, Repr

/-- Policies stored in a namespace, in server-returned order. -/
def policiesIn : List (String × List SriovNetworkNodePolicy) → String →
    List SriovNetworkNodePolicy
  | [], _ => []
  | (ns, ps) :: rest, nsname => if ns = nsname then ps else policiesIn rest nsname

/-- Remove the first policy with the given name from the given namespace. -/
def removePolicy : List (String × List SriovNetworkNodePolicy) → String → String →
    List (String × List SriovNetworkNodePolicy)
  | [], _, _ => []
  | (ns, ps) :: rest, nsname, pname =>
      if ns = nsname then
        (ns, removeFirstNamed ps pname) :: rest
      else
        (ns, ps) :: removePolicy rest nsname pname
where
  /-- Remove the first policy with the given name from a list. -/
  removeFirstNamed : List SriovNetworkNodePolicy → String → List SriovNetworkNodePolicy
    | [], _ => []
    | p :: ps, pname => if p.Name = pname then ps else p :: removeFirstNamed ps pname

/-- The loop body of `ListPolicy`: for each listed item, copy it into a fresh
cell (`copiedNetworkNodePolicy := policy`) and wrap a builder whose `Object`
and `Definition` both point at that copy. -/
def listPolicyItems (hasClient : Bool) :
    List SriovNetworkNodePolicy → SriovHeap → List PolicyBuilder × SriovHeap
  | [], h => ([], h)
  | p :: rest, h =>
    let addr := (allocCell h p).1
    let pb : PolicyBuilder := { apiClient := hasClient, Object := addr, Definition := addr }
    let r := listPolicyItems hasClient rest (allocCell h p).2
    (pb :: r.1, r.2)

/-- Model of `ListPolicy`: fails on an empty namespace without issuing a
request; otherwise logs the list request, propagates a list error, and wraps
each returned item in its own builder, preserving server order. -/
def ListPolicy (hasClient : Bool) (nsname : String) (w : SriovWorld) (h : SriovHeap) :
    (Option (List PolicyBuilder) × Option GoError) × SriovWorld × SriovHeap :=
  if nsname = "" then
    ((none, some (GoError.errorf
        "failed to list SriovNetworkNodePolicies, 'nsname' parameter is empty")), w, h)
  else
    let w1 := { w with listLog := w.listLog ++ [nsname] }
    match w.listErr with
    | some e => ((none, some e), w1, h)
    | none =>
      let r := listPolicyItems hasClient (policiesIn w.policies nsname) h
      ((some r.1, none), w1, r.2)

/-- Modelled from the spec: `PolicyBuilder.Delete` is repository code outside
the sources in scope (only its caller `CleanAllNetworkNodePolicies` is).  Per
the spec's cleanup section it issues a delete request for the referenced
policy and returns the deletion error on failure; success removes the policy
from its namespace. -/
def PolicyBuilder.Delete (pb : PolicyBuilder) (w : SriovWorld) (h : SriovHeap) :
    Option GoError × SriovWorld :=
  match readCell h pb.Object with
  | none => (some (GoError.errorf "nil policy object"), w)
  | some p =>
    let w1 := { w with deleteLog := w.deleteLog ++ [p.Name] }
    if p.Name ∈ w.deleteFail then
      (some (GoError.errorf ("failed to delete policy " ++ p.Name)), w1)
    else
      (none, { w1 with policies := removePolicy w1.policies p.Namespace p.Name })

/-- Dereference a builder's `Object` pointer and read the policy name
(`policy.Object.Name` in the source). -/
def derefPolicyName (h : SriovHeap) (a : Nat) : String :=
  match readCell h a with
  | some p => p.Name
  | none => ""

/-- The deletion loop of `CleanAllNetworkNodePolicies`: delete every listed
policy whose name is not "default", stopping at the first failure. -/
def cleanLoop : List PolicyBuilder → SriovWorld → SriovHeap → Option GoError × SriovWorld
  | [], w, _ => (none, w)
  | pb :: rest, w, h =>
    if derefPolicyName h pb.Object ≠ "default" then
      match PolicyBuilder.Delete pb w h with
      | (some e, w1) => (some e, w1)
      | (none, w1) => cleanLoop rest w1 h
    else
      cleanLoop rest w h

/-- Model of `CleanAllNetworkNodePolicies`: fails on an empty operator
namespace; otherwise lists the namespace's policies and deletes, in list
order, every one not named "default", stopping at the first failure. -/
def CleanAllNetworkNodePolicies (hasClient : Bool) (operatornsname : String)
    (w : SriovWorld) (h : SriovHeap) : Option GoError × SriovWorld × SriovHeap :=
  if operatornsname = "" then
    (some (GoError.errorf
        "failed to clean up SriovNetworkNodePolicies, 'operatornsname' parameter is empty"), w, h)
  else
    let r := ListPolicy hasClient operatornsname w h
    match r.1.2 with
    | some e => (some e, r.2.1, r.2.2)
    | none =>
      let r2 := cleanLoop (r.1.1.getD []) r.2.1 r.2.2
      (r2.1, r2.2, r.2.2)

/-- Model of `NodeConfigBuilder` (the fields `NewNodeConfigBuilder` sets). -/
structure NodeConfigBuilder where
  Objects : Option SriovNetworkNodePolicy
  apiClient : Bool
  nodeName : String
  nsName : String
  errorMsg : String
deriving DecidableEq, Repr

/-- Model of `NewNodeConfigBuilder`: two sequential checks with no early
return, so an empty `nsname` overwrites the error message an empty `nodeName`
recorded. -/
def NewNodeConfigBuilder (apiClient : Bool) (nodeName nsname : String) :
    NodeConfigBuilder :=
  let builder : NodeConfigBuilder :=
    { Objects := none, apiClient := apiClient,
      nodeName := nodeName, nsName := nsname, errorMsg := "" }
  let builder :=
    if nodeName = "" then
      { builder with errorMsg := "SriovFecNodeConfig 'nodeName' is empty" }
    else builder
  let builder :=
    if nsname = "" then
      { builder with errorMsg := "SriovFecNodeConfig 'nsname' is empty" }
    else builder
  builder

/-- One builder-lifetime operation of the IBGU builder. -/
inductive IbguOp where
  | withClusterLabelSelectors (labels : List (String × String))
  | withSeedImageRef (seedImage seedVersion : String)
  | withOadpContent (name nspace : String)
  | withPlan (actions : List String) (maxConcurrency timeout : Int)
  | getOp
  | existsOp
  | createOp
  | deleteOp
deriving DecidableEq, Repr

/-- Small-step semantics of a builder lifetime: run one operation on the
builder and the cluster state. -/
def stepIbgu : IbguOp → IbguBuilder × World → IbguBuilder × World
  | IbguOp.withClusterLabelSelectors labels, (b, w) => (b.WithClusterLabelSelectors labels, w)
  | IbguOp.withSeedImageRef img ver, (b, w) => (b.WithSeedImageRef img ver, w)
  | IbguOp.withOadpContent n ns, (b, w) => (b.WithOadpContent n ns, w)
  | IbguOp.withPlan a mc t, (b, w) => (b.WithPlan a mc t, w)
  | IbguOp.getOp, (b, w) => (b, (b.Get w).2)
  | IbguOp.existsOp, (b, w) =>
      match b.Exists w with
      | ((b1, _), w1) => (b1, w1)
  | IbguOp.createOp, (b, w) =>
      match b.Create w with
      | ((b1, _), w1) => (b1, w1)
  | IbguOp.deleteOp, (b, w) =>
      match b.Delete w with
      | ((b1, _), w1) => (b1, w1)

/-- The invariant as the claim states it: a non-nil Object always equals the
value returned by the most recent successful cluster read. -/
def ibguClaimInvariant (b : IbguBuilder) (w : World) : Prop :=
  b.Object ≠ none → b.Object = w.lastSuccessfulRead

/-- The invariant the code actually maintains: Object is nil, or it holds the
value stored by the most recent successful fetch inside `Exists`, or it holds
the definition submitted by the most recent successful `Create`. -/
def ibguInvariant (b : IbguBuilder) (w : World) : Prop :=
  b.Object = none ∨ b.Object = w.lastExistsRead ∨ b.Object = w.lastCreateSubmit

/-- Names in a list that differ from the protected sentinel "default". -/
def nonDefault (names : List String) : List String :=
  names.filter (fun n => n ≠ "default")

/-- The first name in the list whose deletion fails, if any. -/
def firstFailing (fails : List String) : List String → Option String
  | [] => none
  | n :: rest => if n ∈ fails then some n else firstFailing fails rest

/-- The prefix of names for which a deletion is attempted: everything up to and
including the first failing one. -/
def attemptedDeletes (fails : List String) : List String → List String
  | [] => []
  | n :: rest => if n ∈ fails then [n] else n :: attemptedDeletes fails rest

/-- Number of stored policies carrying a given name, across all namespaces. -/
def countNamed (pols : List (String × List SriovNetworkNodePolicy)) (pname : String) : Nat :=
  match pols with
  | [] => 0
  | (_, ps) :: rest => (ps.filter (fun p => p.Name = pname)).length + countNamed rest pname

/-- The per-item effect of the cleanup loop, phrased on the listed items
themselves rather than on heap-allocated builders. -/
def cleanItems : List SriovNetworkNodePolicy → SriovWorld → Option GoError × SriovWorld
  | [], w => (none, w)
  | p :: rest, w =>
    if p.Name ≠ "default" then
      let w1 := { w with deleteLog := w.deleteLog ++ [p.Name] }
      if p.Name ∈ w.deleteFail then
        (some (GoError.errorf ("failed to delete policy " ++ p.Name)), w1)
      else
        cleanItems rest { w1 with policies := removePolicy w1.policies p.Namespace p.Name }
    else
      cleanItems rest w

/-- A sample IBGU resource value used as a concrete witness input. -/
def sampleIbgu : ImageBasedGroupUpgrade :=
  { metadata := { Name := "upgrade", Namespace := "ns" },
    spec := { IBUSpec := { SeedRef := { Image := "", Version := "" }, OADPContent := [] },
              Plan := [], ClusterLabelSelectors := [] } }

/-- A builder that passes validation. -/
def validBuilder : IbguBuilder :=
  { Definition := some sampleIbgu, Object := none, apiClient := true, errorMsg := "" }

/-- A builder whose deferred error slot is set. -/
def erroredBuilder : IbguBuilder :=
  { validBuilder with errorMsg := "boom" }

/-- A cluster with no stored objects and no injected errors. -/
def emptyWorld : World :=
  { objects := [], getErr := none, createErr := none, deleteErr := none,
    log := [], lastSuccessfulRead := none, lastExistsRead := none,
    lastCreateSubmit := none }

theorem validate_errorMsg (b : IbguBuilder) (hd : b.Definition.isNone = false)
    (hc : b.apiClient = true) (he : b.errorMsg ≠ "") :
    IbguBuilder.validate b = (false, some (GoError.errorf b.errorMsg)) := by
  simp [IbguBuilder.validate, validateOpt, hd, hc, he]

theorem validate_ok (b : IbguBuilder) (hd : b.Definition.isNone = false)
    (hc : b.apiClient = true) (he : b.errorMsg = "") :
    IbguBuilder.validate b = (true, none) := by
  simp [IbguBuilder.validate, validateOpt, hd, hc, he]

theorem withClusterLabelSelectors_invalid (b : IbguBuilder)
    (labels : List (String × String)) (h : (IbguBuilder.validate b).1 = false) :
    b.WithClusterLabelSelectors labels = b := by
  simp [IbguBuilder.WithClusterLabelSelectors, h]

theorem withSeedImageRef_invalid (b : IbguBuilder) (img ver : String)
    (h : (IbguBuilder.validate b).1 = false) : b.WithSeedImageRef img ver = b := by
  simp [IbguBuilder.WithSeedImageRef, h]

theorem withOadpContent_invalid (b : IbguBuilder) (n ns : String)
    (h : (IbguBuilder.validate b).1 = false) : b.WithOadpContent n ns = b := by
  simp [IbguBuilder.WithOadpContent, h]

theorem withPlan_invalid (b : IbguBuilder) (a : List String) (mc t : Int)
    (h : (IbguBuilder.validate b).1 = false) : b.WithPlan a mc t = b := by
  simp [IbguBuilder.WithPlan, h]

theorem get_invalid (b : IbguBuilder) (w : World) (e : Option GoError)
    (h : IbguBuilder.validate b = (false, e)) : b.Get w = ((none, e), w) := by
  simp [IbguBuilder.Get, h]

theorem create_invalid (b : IbguBuilder) (w : World) (e : Option GoError)
    (h : IbguBuilder.validate b = (false, e)) : b.Create w = ((b, e), w) := by
  simp [IbguBuilder.Create, h]

theorem delete_invalid (b : IbguBuilder) (w : World) (e : Option GoError)
    (h : IbguBuilder.validate b = (false, e)) : b.Delete w = ((b, e), w) := by
  simp [IbguBuilder.Delete, h]

theorem get_error_result (b : IbguBuilder) (w : World) :
    (b.Get w).1.2 ≠ none → (b.Get w).1.1 = none := by
  unfold IbguBuilder.Get
  split
  · simp
  · split
    · simp
    · split <;> simp_all

/-- C2: for every builder whose deferred-error slot is non-empty (and whose
definition and client are present, as every reachable errored builder's are),
each configuration call returns the builder unchanged — so the Definition is
not mutated and the slot still holds the same message — and each terminal
operation returns the error built from the slot while leaving the cluster
state, including its request log, untouched. -/
theorem ibgu_deferred_error_short_circuit (b : IbguBuilder)
    (hd : b.Definition.isNone = false) (hc : b.apiClient = true)
    (he : b.errorMsg ≠ "") :
    (∀ labels, b.WithClusterLabelSelectors labels = b) ∧
    (∀ img ver, b.WithSeedImageRef img ver = b) ∧
    (∀ n ns, b.WithOadpContent n ns = b) ∧
    (∀ a mc t, b.WithPlan a mc t = b) ∧
    (∀ w, b.Get w = ((none, some (GoError.errorf b.errorMsg)), w)) ∧
    (∀ w, b.Create w = ((b, some (GoError.errorf b.errorMsg)), w)) ∧
    (∀ w, b.Delete w = ((b, some (GoError.errorf b.errorMsg)), w)) := by
  have hv := validate_errorMsg b hd hc he
  have hv1 : (IbguBuilder.validate b).1 = false := by rw [hv]
  refine ⟨fun labels => withClusterLabelSelectors_invalid b labels hv1,
          fun img ver => withSeedImageRef_invalid b img ver hv1,
          fun n ns => withOadpContent_invalid b n ns hv1,
          fun a mc t => withPlan_invalid b a mc t hv1,
          fun w => get_invalid b w _ hv,
          fun w => create_invalid b w _ hv,
          fun w => delete_invalid b w _ hv⟩

theorem ibgu_deferred_error_short_circuit_witness :
    (erroredBuilder.Definition.isNone = false ∧ erroredBuilder.apiClient = true ∧
      erroredBuilder.errorMsg ≠ "") ∧
    erroredBuilder.WithPlan ["Prep"] 1 1 = erroredBuilder ∧
    erroredBuilder.Get emptyWorld =
      ((none, some (GoError.errorf "boom")), emptyWorld) ∧
    erroredBuilder.Delete emptyWorld =
      ((erroredBuilder, some (GoError.errorf "boom")), emptyWorld) :=
  ⟨⟨by decide, by decide, by decide⟩,
   (ibgu_deferred_error_short_circuit erroredBuilder (by decide) (by decide)
      (by decide)).2.2.2.1 ["Prep"] 1 1,
   (ibgu_deferred_error_short_circuit erroredBuilder (by decide) (by decide)
      (by decide)).2.2.2.2.1 emptyWorld,
   (ibgu_deferred_error_short_circuit erroredBuilder (by decide) (by decide)
      (by decide)).2.2.2.2.2.2 emptyWorld⟩

/-- C1: for a builder that passes validation, `Exists` stores the `Get` result
into `Object` (the fetched object on success, nil on error) and returns
`err == nil || !IsNotFound(err)` — in particular true on any non-not-found
error — while a builder that fails validation yields false and leaves the
builder and the cluster untouched. -/
theorem ibgu_exists_stores_get_result (b : IbguBuilder) (w : World) :
    ((IbguBuilder.validate b).1 = true →
       (b.Exists w).1.1.Object = (b.Get w).1.1 ∧
       (b.Exists w).1.2 = ((b.Get w).1.2.isNone || !(IsNotFound (b.Get w).1.2)) ∧
       ((b.Get w).1.2 ≠ none → (b.Get w).1.1 = none) ∧
       (∀ e, (b.Get w).1.2 = some e → e ≠ GoError.notFound → (b.Exists w).1.2 = true)) ∧
    ((IbguBuilder.validate b).1 = false → b.Exists w = ((b, false), w)) := by
  constructor
  · intro hv
    have hv1 : ((IbguBuilder.validate b).1 = false) = False := by simp [hv]
    rcases hget : b.Get w with ⟨⟨obj, err⟩, w1⟩
    refine ⟨?_, ?_, ?_, ?_⟩
    · simp [IbguBuilder.Exists, hv1, hget]
    · simp [IbguBuilder.Exists, hv1, hget]
    · intro hne
      have := get_error_result b w
      rw [hget] at this
      simpa using this (by simpa [hget] using hne)
    · intro e hsome hnf
      have herr : err = some e := by simpa [hget] using hsome
      simp [IbguBuilder.Exists, hv1, hget, herr, IsNotFound]
      cases e <;> simp_all [IsNotFound]
  · intro hv
    simp [IbguBuilder.Exists, hv]

theorem ibgu_exists_stores_get_result_witness :
    (IbguBuilder.validate validBuilder).1 = true ∧
    (validBuilder.Exists emptyWorld).1.1.Object = (validBuilder.Get emptyWorld).1.1 ∧
    (validBuilder.Exists emptyWorld).1.2 =
      (((validBuilder.Get emptyWorld).1.2.isNone) ||
        !(IsNotFound (validBuilder.Get emptyWorld).1.2)) :=
  ⟨by decide,
   ((ibgu_exists_stores_get_result validBuilder emptyWorld).1 (by decide)).1,
   ((ibgu_exists_stores_get_result validBuilder emptyWorld).1 (by decide)).2.1⟩

/-- C10: `NewIbguBuilder` returns nil for a nil client or a failed scheme
attach, and otherwise returns a builder whose deferred error slot is set
exactly when the name or the namespace is empty. -/
theorem newIbguBuilder_nil_vs_deferred (name nsname : String) (s : ClientsSettings) :
    NewIbguBuilder none name nsname = none ∧
    (s.attachSchemeFails = true → NewIbguBuilder (some s) name nsname = none) ∧
    (s.attachSchemeFails = false →
       (NewIbguBuilder (some s) name nsname).isSome = true ∧
       ∀ b, NewIbguBuilder (some s) name nsname = some b →
         (b.errorMsg ≠ "" ↔ (name = "" ∨ nsname = ""))) := by
  refine ⟨rfl, fun hs => by simp [NewIbguBuilder, hs], fun hs => ⟨?_, ?_⟩⟩
  · by_cases hn : name = "" <;> by_cases hns : nsname = "" <;>
      simp [NewIbguBuilder, hs, hn, hns]
  · intro b hb
    by_cases hn : name = "" <;> by_cases hns : nsname = "" <;>
      simp [NewIbguBuilder, hs, hn, hns] at hb <;>
      simp [← hb, hn, hns]

theorem newIbguBuilder_nil_vs_deferred_witness :
    NewIbguBuilder none "upgrade" "ns" = none ∧
    NewIbguBuilder (some { attachSchemeFails := true }) "upgrade" "ns" = none ∧
    ((NewIbguBuilder (some { attachSchemeFails := false }) "" "ns").isSome = true ∧
      ∀ b, NewIbguBuilder (some { attachSchemeFails := false }) "" "ns" = some b →
        (b.errorMsg ≠ "" ↔ (("" : String) = "" ∨ ("ns" : String) = ""))) :=
  ⟨(newIbguBuilder_nil_vs_deferred "upgrade" "ns" { attachSchemeFails := true }).1,
   (newIbguBuilder_nil_vs_deferred "upgrade" "ns" { attachSchemeFails := true }).2.1 rfl,
   (newIbguBuilder_nil_vs_deferred "" "ns" { attachSchemeFails := false }).2.2 rfl⟩

/-- C7 counterexample: constructing a NodeConfigBuilder with both identifying
fields empty leaves the slot holding the nsname failure message — the last
failure, not the first as the claim states. -/
theorem nodeconfig_both_empty_keeps_last_failure :
    (NewNodeConfigBuilder true "" "").errorMsg = "SriovFecNodeConfig 'nsname' is empty" ∧
    (NewNodeConfigBuilder true "" "").errorMsg ≠ "SriovFecNodeConfig 'nodeName' is empty" := by
  constructor <;> decide

/-- C7 amended: chained configuration calls preserve the first recorded
failure (validation short-circuits before any new message is written), and
`NewIbguBuilder` keeps the first constructor failure by early return; but
`NewNodeConfigBuilder`'s two constructor checks run in sequence without an
early return, so with both fields empty the slot holds the nsname (last)
failure message. -/
theorem deferred_error_slot_first_failure_amended (s : ClientsSettings)
    (hs : s.attachSchemeFails = false) (b : IbguBuilder)
    (hd : b.Definition.isNone = false) (hc : b.apiClient = true)
    (he : b.errorMsg ≠ "") :
    (NewNodeConfigBuilder true "" "").errorMsg = "SriovFecNodeConfig 'nsname' is empty" ∧
    Option.map IbguBuilder.errorMsg (NewIbguBuilder (some s) "" "") =
      some "ibgu 'name' cannot be empty" ∧
    (∀ labels, (b.WithClusterLabelSelectors labels).errorMsg = b.errorMsg) ∧
    (∀ img ver, (b.WithSeedImageRef img ver).errorMsg = b.errorMsg) ∧
    (∀ n ns, (b.WithOadpContent n ns).errorMsg = b.errorMsg) ∧
    (∀ a mc t, (b.WithPlan a mc t).errorMsg = b.errorMsg) := by
  have hv := validate_errorMsg b hd hc he
  have hv1 : (IbguBuilder.validate b).1 = false := by rw [hv]
  refine ⟨by decide, by simp [NewIbguBuilder, hs], ?_, ?_, ?_, ?_⟩
  · intro labels; rw [withClusterLabelSelectors_invalid b labels hv1]
  · intro img ver; rw [withSeedImageRef_invalid b img ver hv1]
  · intro n ns; rw [withOadpContent_invalid b n ns hv1]
  · intro a mc t; rw [withPlan_invalid b a mc t hv1]

theorem deferred_error_slot_first_failure_amended_witness :
    (NewNodeConfigBuilder true "" "").errorMsg = "SriovFecNodeConfig 'nsname' is empty" ∧
    Option.map IbguBuilder.errorMsg
        (NewIbguBuilder (some { attachSchemeFails := false }) "" "") =
      some "ibgu 'name' cannot be empty" ∧
    (erroredBuilder.WithOadpContent "cm" "ns").errorMsg = erroredBuilder.errorMsg :=
  ⟨(deferred_error_slot_first_failure_amended { attachSchemeFails := false } rfl
      erroredBuilder (by decide) (by decide) (by decide)).1,
   (deferred_error_slot_first_failure_amended { attachSchemeFails := false } rfl
      erroredBuilder (by decide) (by decide) (by decide)).2.1,
   (deferred_error_slot_first_failure_amended { attachSchemeFails := false } rfl
      erroredBuilder (by decide) (by decide) (by decide)).2.2.2.2.1 "cm" "ns"⟩

theorem lookupObj_append_of_none (xs : List ((String × String) × ImageBasedGroupUpgrade))
    (k : String × String) (d : ImageBasedGroupUpgrade) (h : lookupObj xs k = none) :
    lookupObj (xs ++ [(k, d)]) k = some d := by
  induction xs with
  | nil => simp [lookupObj]
  | cons hd tl ih =>
    obtain ⟨k', o⟩ := hd
    by_cases hk : k' = k
    · simp [lookupObj, hk] at h
    · simp [lookupObj, hk] at h ⊢
      exact ih h

/-- C3: on a cluster where the resource is absent and no errors are injected,
the first `Create` issues a create request with the Definition, stores it, and
sets Object to the Definition; a second `Create` on the resulting builder and
cluster finds the resource existing, issues no create request (only the
existence-check read), and returns a nil error. -/
theorem ibgu_create_idempotent_by_skip (b : IbguBuilder)
    (d : ImageBasedGroupUpgrade) (w : World)
    (hd : b.Definition = some d) (hc : b.apiClient = true) (he : b.errorMsg = "")
    (habsent : lookupObj w.objects (d.metadata.Name, d.metadata.Namespace) = none)
    (hg : w.getErr = none) (hcr : w.createErr = none) :
    b.Create w =
      (({ b with Object := some d }, none),
       { w with objects := w.objects ++ [((d.metadata.Name, d.metadata.Namespace), d)],
                log := w.log ++ [Request.get (d.metadata.Name, d.metadata.Namespace),
                                 Request.create (some d)],
                lastCreateSubmit := some d }) ∧
    IbguBuilder.Create { b with Object := some d }
      { w with objects := w.objects ++ [((d.metadata.Name, d.metadata.Namespace), d)],
               log := w.log ++ [Request.get (d.metadata.Name, d.metadata.Namespace),
                                Request.create (some d)],
               lastCreateSubmit := some d } =
      (({ b with Object := some d }, none),
       { w with objects := w.objects ++ [((d.metadata.Name, d.metadata.Namespace), d)],
                log := w.log ++ [Request.get (d.metadata.Name, d.metadata.Namespace),
                                 Request.create (some d),
                                 Request.get (d.metadata.Name, d.metadata.Namespace)],
                lastSuccessfulRead := some d,
                lastExistsRead := some d,
                lastCreateSubmit := some d }) := by
  have hlk := lookupObj_append_of_none w.objects
    (d.metadata.Name, d.metadata.Namespace) d habsent
  constructor
  · simp [IbguBuilder.Create, IbguBuilder.Exists, IbguBuilder.Get, IbguBuilder.validate,
      validateOpt, clientGet, clientCreate, IsNotFound, hd, hc, he, habsent, hg, hcr]
  · simp [IbguBuilder.Create, IbguBuilder.Exists, IbguBuilder.Get, IbguBuilder.validate,
      validateOpt, clientGet, clientCreate, IsNotFound, hd, hc, he, hg, hcr, hlk]

theorem ibgu_create_idempotent_by_skip_witness :
    validBuilder.Create emptyWorld =
      (({ validBuilder with Object := some sampleIbgu }, none),
       { emptyWorld with
           objects := emptyWorld.objects ++
             [((sampleIbgu.metadata.Name, sampleIbgu.metadata.Namespace), sampleIbgu)],
           log := emptyWorld.log ++
             [Request.get (sampleIbgu.metadata.Name, sampleIbgu.metadata.Namespace),
              Request.create (some sampleIbgu)],
           lastCreateSubmit := some sampleIbgu }) :=
  (ibgu_create_idempotent_by_skip validBuilder sampleIbgu emptyWorld
    rfl rfl rfl rfl rfl rfl).1

/-- A cluster holding the sample resource under its own key. -/
def presentWorld : World :=
  { emptyWorld with objects := [(("upgrade", "ns"), sampleIbgu)] }

/-- The same cluster with delete requests failing. -/
def deleteFailWorld : World :=
  { presentWorld with deleteErr := some (GoError.errorf "forbidden") }

/-- C4 counterexample: on a builder whose Object is nil and a cluster where
the resource exists but deletion fails, `Delete` returns the delete error yet
leaves Object holding the object fetched by its internal existence check —
not "unchanged from its value before the Delete call" as the claim states. -/
theorem ibgu_delete_failure_object_changed :
    validBuilder.Object = none ∧
    (validBuilder.Delete deleteFailWorld).1.2 = some (GoError.errorf "forbidden") ∧
    (validBuilder.Delete deleteFailWorld).1.1.Object ≠ validBuilder.Object := by
  refine ⟨rfl, ?_, ?_⟩ <;> decide

/-- C4 amended: for a valid builder, `Delete` on an absent resource clears
Object and returns nil; when the resource exists, it deletes the
last-observed Object (the one its internal existence check just fetched), and
on a failed delete request returns that error and leaves Object holding that
freshly fetched object — which may differ from Object's value before the
call; on success it clears Object and returns nil. -/
theorem ibgu_delete_behavior_amended (b : IbguBuilder)
    (d o : ImageBasedGroupUpgrade) (w : World)
    (hd : b.Definition = some d) (hc : b.apiClient = true) (he : b.errorMsg = "")
    (hg : w.getErr = none) :
    (lookupObj w.objects (d.metadata.Name, d.metadata.Namespace) = none →
       b.Delete w = (({ b with Object := none }, none),
         { w with log := w.log ++ [Request.get (d.metadata.Name, d.metadata.Namespace)] })) ∧
    (lookupObj w.objects (d.metadata.Name, d.metadata.Namespace) = some o →
       (∀ e, w.deleteErr = some e →
          b.Delete w = (({ b with Object := some o }, some e),
            { w with log := w.log ++ [Request.get (d.metadata.Name, d.metadata.Namespace),
                                      Request.delete (some o)],
                     lastSuccessfulRead := some o,
                     lastExistsRead := some o })) ∧
       (w.deleteErr = none →
          (o.metadata.Name, o.metadata.Namespace) = (d.metadata.Name, d.metadata.Namespace) →
          b.Delete w = (({ b with Object := none }, none),
            { w with objects := removeObj w.objects (d.metadata.Name, d.metadata.Namespace),
                     log := w.log ++ [Request.get (d.metadata.Name, d.metadata.Namespace),
                                      Request.delete (some o)],
                     lastSuccessfulRead := some o,
                     lastExistsRead := some o }))) := by
  refine ⟨fun habs => ?_, fun hpres => ⟨fun e hde => ?_, fun hde hkey => ?_⟩⟩
  · simp [IbguBuilder.Delete, IbguBuilder.Exists, IbguBuilder.Get, IbguBuilder.validate,
      validateOpt, clientGet, clientDelete, IsNotFound, hd, hc, he, hg, habs]
  · simp [IbguBuilder.Delete, IbguBuilder.Exists, IbguBuilder.Get, IbguBuilder.validate,
      validateOpt, clientGet, clientDelete, IsNotFound, hd, hc, he, hg, hpres, hde]
  · simp [IbguBuilder.Delete, IbguBuilder.Exists, IbguBuilder.Get, IbguBuilder.validate,
      validateOpt, clientGet, clientDelete, IsNotFound, hd, hc, he, hg, hpres, hde, hkey]

theorem ibgu_delete_behavior_amended_witness :
    validBuilder.Delete deleteFailWorld =
      (({ validBuilder with Object := some sampleIbgu }, some (GoError.errorf "forbidden")),
       { deleteFailWorld with
           log := deleteFailWorld.log ++
             [Request.get (sampleIbgu.metadata.Name, sampleIbgu.metadata.Namespace),
              Request.delete (some sampleIbgu)],
           lastSuccessfulRead := some sampleIbgu,
           lastExistsRead := some sampleIbgu }) :=
  ((ibgu_delete_behavior_amended validBuilder sampleIbgu sampleIbgu deleteFailWorld
      rfl rfl rfl rfl).2 (by decide)).1 (GoError.errorf "forbidden") rfl

/-- A cluster whose reads fail with an error that is not a not-found error. -/
def failingGetWorld : World :=
  { emptyWorld with getErr := some (GoError.errorf "etcd unavailable") }

/-- C8: when Get fails with a non-not-found error, `Exists` returns true while
setting Object to nil, so `Delete` proceeds past its existence check and
issues a delete request whose payload is the nil Object. -/
theorem ibgu_delete_issues_nil_delete :
    (validBuilder.Exists failingGetWorld).1.2 = true ∧
    (validBuilder.Exists failingGetWorld).1.1.Object = none ∧
    (validBuilder.Delete failingGetWorld).2.log =
      [Request.get ("upgrade", "ns"), Request.delete none] := by
  refine ⟨?_, ?_, ?_⟩ <;> decide

theorem listPolicyItems_cells (c : Bool) (items : List SriovNetworkNodePolicy)
    (h : SriovHeap) : (listPolicyItems c items h).2.cells = h.cells ++ items := by
  induction items generalizing h with
  | nil => simp [listPolicyItems]
  | cons p rest ih => simp [listPolicyItems, allocCell, ih]

theorem listPolicyItems_length (c : Bool) (items : List SriovNetworkNodePolicy)
    (h : SriovHeap) : (listPolicyItems c items h).1.length = items.length := by
  induction items generalizing h with
  | nil => simp [listPolicyItems]
  | cons p rest ih => simp [listPolicyItems, ih]

theorem listPolicyItems_get (c : Bool) (items : List SriovNetworkNodePolicy)
    (h : SriovHeap) (i : Nat) (hi : i < items.length) :
    (listPolicyItems c items h).1.get? i =
      some { apiClient := c, Object := h.cells.length + i,
             Definition := h.cells.length + i } := by
  induction items generalizing h i with
  | nil => simp at hi
  | cons p rest ih =>
    cases i with
    | zero => simp [listPolicyItems, allocCell]
    | succ n =>
      have hn : n < rest.length := by simpa using hi
      have hrec := ih (h := ⟨h.cells ++ [p]⟩) (i := n) hn
      rw [show h.cells.length + (n + 1) = h.cells.length + 1 + n by omega]
      simpa [listPolicyItems, allocCell] using hrec

/-- C9: every builder returned by a successful `ListPolicy` call has its
`Object` and `Definition` pointing at the same freshly allocated cell, that
cell holds the corresponding listed item (so both fields are non-nil), and
distinct builders point at distinct cells — no two returned builders share
storage, and none aliases any pre-existing storage such as the loop iteration
variable's, since every referenced cell is fresh. -/
theorem listPolicy_builders_distinct_copies (c : Bool) (ns : String)
    (w : SriovWorld) (h : SriovHeap) (hns : ns ≠ "") (hl : w.listErr = none) :
    (ListPolicy c ns w h).1.2 = none ∧
    (ListPolicy c ns w h).1.1 =
      some (listPolicyItems c (policiesIn w.policies ns) h).1 ∧
    (∀ i, i < (policiesIn w.policies ns).length →
       ∃ pb, (listPolicyItems c (policiesIn w.policies ns) h).1.get? i = some pb ∧
         pb.Definition = pb.Object ∧
         h.cells.length ≤ pb.Object ∧
         readCell (ListPolicy c ns w h).2.2 pb.Object =
           (policiesIn w.policies ns).get? i ∧
         ((policiesIn w.policies ns).get? i).isSome) ∧
    (∀ i j pbi pbj,
       (listPolicyItems c (policiesIn w.policies ns) h).1.get? i = some pbi →
       (listPolicyItems c (policiesIn w.policies ns) h).1.get? j = some pbj →
       i ≠ j → pbi.Object ≠ pbj.Object) := by
  have hLP : ListPolicy c ns w h =
      ((some (listPolicyItems c (policiesIn w.policies ns) h).1, none),
       { w with listLog := w.listLog ++ [ns] },
       (listPolicyItems c (policiesIn w.policies ns) h).2) := by
    simp [ListPolicy, hns, hl]
  have hlen := listPolicyItems_length c (policiesIn w.policies ns) h
  refine ⟨by rw [hLP], by rw [hLP], ?_, ?_⟩
  · intro i hi
    refine ⟨_, listPolicyItems_get c _ h i hi, rfl, Nat.le_add_right _ _, ?_, ?_⟩
    · rw [hLP]
      show readCell (listPolicyItems c (policiesIn w.policies ns) h).2 _ = _
      rw [readCell, listPolicyItems_cells,
        List.get?_append_right (Nat.le_add_right _ _)]
      simp
    · rw [List.get?_eq_get hi]
      rfl
  · intro i j pbi pbj hgi hgj hij
    have hi : i < (policiesIn w.policies ns).length := by
      by_contra hcon
      rw [List.get?_eq_none.mpr (by omega)] at hgi
      exact Option.noConfusion hgi
    have hj : j < (policiesIn w.policies ns).length := by
      by_contra hcon
      rw [List.get?_eq_none.mpr (by omega)] at hgj
      exact Option.noConfusion hgj
    rw [listPolicyItems_get c _ h i hi] at hgi
    rw [listPolicyItems_get c _ h j hj] at hgj
    have hpbi := Option.some.inj hgi
    have hpbj := Option.some.inj hgj
    subst hpbi
    subst hpbj
    simp
    omega

/-- A cluster listing two non-default policies in one namespace. -/
def twoPolicyWorld : SriovWorld :=
  { policies := [("opns", [{ Name := "a", Namespace := "opns" },
                           { Name := "b", Namespace := "opns" }])],
    listErr := none, deleteFail := [], listLog := [], deleteLog := [] }

theorem listPolicy_builders_distinct_copies_witness :
    (ListPolicy true "opns" twoPolicyWorld ⟨[]⟩).1.2 = none ∧
    (∃ pb, (listPolicyItems true (policiesIn twoPolicyWorld.policies "opns")
        ⟨[]⟩).1.get? 0 = some pb ∧
      pb.Definition = pb.Object ∧
      (⟨[]⟩ : SriovHeap).cells.length ≤ pb.Object ∧
      readCell (ListPolicy true "opns" twoPolicyWorld ⟨[]⟩).2.2 pb.Object =
        (policiesIn twoPolicyWorld.policies "opns").get? 0 ∧
      ((policiesIn twoPolicyWorld.policies "opns").get? 0).isSome) :=
  ⟨(listPolicy_builders_distinct_copies true "opns" twoPolicyWorld ⟨[]⟩
      (by decide) rfl).1,
   (listPolicy_builders_distinct_copies true "opns" twoPolicyWorld ⟨[]⟩
      (by decide) rfl).2.2.1 0 (by decide)⟩

theorem cleanLoop_eq_cleanItems (c : Bool) (items : List SriovNetworkNodePolicy)
    (h : SriovHeap) (w : SriovWorld) :
    cleanLoop (listPolicyItems c items h).1 w (listPolicyItems c items h).2 =
      cleanItems items w := by
  induction items generalizing h w with
  | nil => simp [listPolicyItems, cleanLoop, cleanItems]
  | cons p rest ih =>
    have hread : readCell (listPolicyItems c rest ⟨h.cells ++ [p]⟩).2
        h.cells.length = some p := by
      rw [readCell, listPolicyItems_cells]
      show (h.cells ++ [p] ++ rest).get? h.cells.length = some p
      rw [List.append_assoc, List.get?_append_right (le_refl _)]
      simp
    by_cases hdef : p.Name = "default"
    · simpa [cleanLoop, cleanItems, listPolicyItems, allocCell, derefPolicyName,
        hread, hdef] using ih ⟨h.cells ++ [p]⟩ w
    · by_cases hfail : p.Name ∈ w.deleteFail
      · simp [cleanLoop, cleanItems, listPolicyItems, allocCell, derefPolicyName,
          PolicyBuilder.Delete, hread, hdef, hfail]
      · simpa [cleanLoop, cleanItems, listPolicyItems, allocCell, derefPolicyName,
          PolicyBuilder.Delete, hread, hdef, hfail] using
          ih ⟨h.cells ++ [p]⟩
            { w with deleteLog := w.deleteLog ++ [p.Name],
                     policies := removePolicy w.policies p.Namespace p.Name }

theorem length_filter_removeFirstNamed (ps : List SriovNetworkNodePolicy)
    (pname : String) (hp : pname ≠ "default") :
    ((removePolicy.removeFirstNamed ps pname).filter
        (fun p => p.Name = "default")).length =
      (ps.filter (fun p => p.Name = "default")).length := by
  induction ps with
  | nil => rfl
  | cons q qs ih =>
    by_cases hq : q.Name = pname
    · have hqd : ¬(q.Name = "default") := by rw [hq]; exact hp
      simp [removePolicy.removeFirstNamed, hq, List.filter_cons, hqd, hp]
    · by_cases hqd : q.Name = "default" <;>
        simp [removePolicy.removeFirstNamed, hq, List.filter_cons, hqd, ih, hp,
          Ne.symm hp]

theorem countNamed_removePolicy (pols : List (String × List SriovNetworkNodePolicy))
    (nsname pname : String) (hp : pname ≠ "default") :
    countNamed (removePolicy pols nsname pname) "default" =
      countNamed pols "default" := by
  induction pols with
  | nil => rfl
  | cons e rest ih =>
    obtain ⟨ns, ps⟩ := e
    by_cases hns : ns = nsname
    · simp [removePolicy, hns, countNamed,
        length_filter_removeFirstNamed ps pname hp]
    · simp [removePolicy, hns, countNamed, ih]

theorem cleanItems_spec (items : List SriovNetworkNodePolicy) (w : SriovWorld) :
    (cleanItems items w).1 =
      (firstFailing w.deleteFail
          (nonDefault (items.map SriovNetworkNodePolicy.Name))).map
        (fun n => GoError.errorf ("failed to delete policy " ++ n)) ∧
    (cleanItems items w).2.deleteLog =
      w.deleteLog ++ attemptedDeletes w.deleteFail
        (nonDefault (items.map SriovNetworkNodePolicy.Name)) ∧
    (cleanItems items w).2.deleteFail = w.deleteFail ∧
    countNamed (cleanItems items w).2.policies "default" =
      countNamed w.policies "default" := by
  induction items generalizing w with
  | nil => simp [cleanItems, nonDefault, firstFailing, attemptedDeletes]
  | cons p rest ih =>
    by_cases hdef : p.Name = "default"
    · simpa [cleanItems, nonDefault, hdef] using ih w
    · by_cases hfail : p.Name ∈ w.deleteFail
      · simp [cleanItems, nonDefault, firstFailing, attemptedDeletes, hdef, hfail]
      · have hrec := ih { w with deleteLog := w.deleteLog ++ [p.Name],
                                 policies := removePolicy w.policies p.Namespace p.Name }
        simp [cleanItems, nonDefault, firstFailing, attemptedDeletes, hdef, hfail] at hrec ⊢
        refine ⟨hrec.1, by simp [hrec.2.1], hrec.2.2.1, ?_⟩
        rw [hrec.2.2.2, countNamed_removePolicy _ _ _ hdef]

theorem mem_attemptedDeletes (F l : List String) (n : String) :
    n ∈ attemptedDeletes F l → n ∈ l := by
  induction l with
  | nil => simp [attemptedDeletes]
  | cons m rest ih =>
    by_cases hm : m ∈ F
    · simp [attemptedDeletes, hm]
      intro h
      exact Or.inl h
    · simp [attemptedDeletes, hm]
      intro h
      rcases h with rfl | h
      · exact Or.inl rfl
      · exact Or.inr (ih h)

theorem default_not_mem_nonDefault (l : List String) : "default" ∉ nonDefault l := by
  simp [nonDefault]

/-- C5: `CleanAllNetworkNodePolicies` fails without listing when the operator
namespace is empty; otherwise it lists the namespace and attempts, in list
order, exactly the policies whose name is not "default" up to and including
the first failing one, returns the first deletion failure (nil when all
succeed), never attempts the "default" policy, and leaves every stored policy
named "default" in place. -/
theorem cleanAll_deletes_non_default (c : Bool) (ns : String) (w : SriovWorld)
    (h : SriovHeap) :
    (ns = "" → CleanAllNetworkNodePolicies c ns w h =
       (some (GoError.errorf
          "failed to clean up SriovNetworkNodePolicies, 'operatornsname' parameter is empty"),
        w, h)) ∧
    (ns ≠ "" → w.listErr = none →
       ((CleanAllNetworkNodePolicies c ns w h).1 =
          (firstFailing w.deleteFail
              (nonDefault ((policiesIn w.policies ns).map
                SriovNetworkNodePolicy.Name))).map
            (fun n => GoError.errorf ("failed to delete policy " ++ n)) ∧
        (CleanAllNetworkNodePolicies c ns w h).2.1.deleteLog =
          w.deleteLog ++ attemptedDeletes w.deleteFail
            (nonDefault ((policiesIn w.policies ns).map SriovNetworkNodePolicy.Name)) ∧
        "default" ∉ attemptedDeletes w.deleteFail
            (nonDefault ((policiesIn w.policies ns).map SriovNetworkNodePolicy.Name)) ∧
        countNamed (CleanAllNetworkNodePolicies c ns w h).2.1.policies "default" =
          countNamed w.policies "default")) := by
  constructor
  · intro hns
    simp [CleanAllNetworkNodePolicies, hns]
  · intro hns hl
    have hCA : CleanAllNetworkNodePolicies c ns w h =
        ((cleanItems (policiesIn w.policies ns)
            { w with listLog := w.listLog ++ [ns] }).1,
         (cleanItems (policiesIn w.policies ns)
            { w with listLog := w.listLog ++ [ns] }).2,
         (listPolicyItems c (policiesIn w.policies ns) h).2) := by
      simp [CleanAllNetworkNodePolicies, ListPolicy, hns, hl, cleanLoop_eq_cleanItems]
    have hspec := cleanItems_spec (policiesIn w.policies ns)
      { w with listLog := w.listLog ++ [ns] }
    refine ⟨?_, ?_, ?_, ?_⟩
    · rw [hCA]
      simpa using hspec.1
    · rw [hCA]
      simpa using hspec.2.1
    · exact fun hmem => default_not_mem_nonDefault _ (mem_attemptedDeletes _ _ _ hmem)
    · rw [hCA]
      simpa using hspec.2.2.2

/-- A cluster listing the policies "default", "a", "b" with no failures. -/
def threePolicyWorld : SriovWorld :=
  { policies := [("opns", [{ Name := "default", Namespace := "opns" },
                           { Name := "a", Namespace := "opns" },
                           { Name := "b", Namespace := "opns" }])],
    listErr := none, deleteFail := [], listLog := [], deleteLog := [] }

/-- The same cluster with the deletion of "a" failing. -/
def failPolicyWorld : SriovWorld :=
  { threePolicyWorld with deleteFail := ["a"] }

theorem cleanAll_deletes_non_default_witness :
    (CleanAllNetworkNodePolicies true "" threePolicyWorld ⟨[]⟩).1 ≠ none ∧
    (CleanAllNetworkNodePolicies true "opns" threePolicyWorld ⟨[]⟩).1 = none ∧
    (CleanAllNetworkNodePolicies true "opns" threePolicyWorld ⟨[]⟩).2.1.deleteLog =
      ["a", "b"] ∧
    countNamed (CleanAllNetworkNodePolicies true "opns" threePolicyWorld
      ⟨[]⟩).2.1.policies "default" = 1 ∧
    (CleanAllNetworkNodePolicies true "opns" failPolicyWorld ⟨[]⟩).1 =
      some (GoError.errorf "failed to delete policy a") ∧
    (CleanAllNetworkNodePolicies true "opns" failPolicyWorld ⟨[]⟩).2.1.deleteLog =
      ["a"] := by
  have hempty := (cleanAll_deletes_non_default true "" threePolicyWorld ⟨[]⟩).1 rfl
  have hok := (cleanAll_deletes_non_default true "opns" threePolicyWorld ⟨[]⟩).2
    (by decide) rfl
  have hfail := (cleanAll_deletes_non_default true "opns" failPolicyWorld ⟨[]⟩).2
    (by decide) rfl
  refine ⟨by rw [hempty]; decide, by rw [hok.1]; decide, by rw [hok.2.1]; decide,
    by rw [hok.2.2.2]; decide, by rw [hfail.1]; decide, by rw [hfail.2.1]; decide⟩

theorem withClusterLabelSelectors_object (b : IbguBuilder)
    (labels : List (String × String)) :
    (b.WithClusterLabelSelectors labels).Object = b.Object := by
  unfold IbguBuilder.WithClusterLabelSelectors
  repeat' split
  all_goals rfl

theorem withSeedImageRef_object (b : IbguBuilder) (img ver : String) :
    (b.WithSeedImageRef img ver).Object = b.Object := by
  unfold IbguBuilder.WithSeedImageRef
  repeat' split
  all_goals rfl

theorem withOadpContent_object (b : IbguBuilder) (n ns : String) :
    (b.WithOadpContent n ns).Object = b.Object := by
  unfold IbguBuilder.WithOadpContent
  repeat' split
  all_goals rfl

theorem withPlan_object (b : IbguBuilder) (a : List String) (mc t : Int) :
    (b.WithPlan a mc t).Object = b.Object := by
  unfold IbguBuilder.WithPlan
  repeat' split
  all_goals rfl

theorem clientGet_ghosts (w : World) (k : String × String) :
    ((clientGet w k).2).lastExistsRead = w.lastExistsRead ∧
    ((clientGet w k).2).lastCreateSubmit = w.lastCreateSubmit := by
  unfold clientGet
  repeat' split
  all_goals simp

theorem get_ghosts (b : IbguBuilder) (w : World) :
    ((b.Get w).2).lastExistsRead = w.lastExistsRead ∧
    ((b.Get w).2).lastCreateSubmit = w.lastCreateSubmit := by
  unfold IbguBuilder.Get
  rcases hv : IbguBuilder.validate b with ⟨fl, verr⟩
  rcases fl
  · simp [hv]
  · rcases hd : b.Definition with _ | d
    · simp [hv, hd]
    · have hcg := clientGet_ghosts w (d.metadata.Name, d.metadata.Namespace)
      rcases hres : clientGet w (d.metadata.Name, d.metadata.Namespace) with ⟨⟨obj, cerr⟩, w1⟩
      rw [hres] at hcg
      rcases cerr with _ | e <;> simp [hv, hd, hres] <;> simpa using hcg

theorem clientCreate_success_ghost (w : World) (o : Option ImageBasedGroupUpgrade)
    (h : (clientCreate w o).1 = none) :
    ((clientCreate w o).2).lastCreateSubmit = o := by
  rcases hce : w.createErr with _ | e
  · rcases o with _ | obj
    · simp [clientCreate, hce] at h
    · by_cases hlk : (lookupObj w.objects
          (obj.metadata.Name, obj.metadata.Namespace)).isSome
      · simp [clientCreate, hce, hlk] at h
      · simp [clientCreate, hce, hlk]
  · simp [clientCreate, hce] at h

theorem clientDelete_ghosts (w : World) (o : Option ImageBasedGroupUpgrade) :
    ((clientDelete w o).2).lastExistsRead = w.lastExistsRead ∧
    ((clientDelete w o).2).lastCreateSubmit = w.lastCreateSubmit := by
  unfold clientDelete
  repeat' split
  all_goals simp

theorem exists_preserves_invariant (b : IbguBuilder) (w : World)
    (hinv : ibguInvariant b w) :
    ibguInvariant (b.Exists w).1.1 (b.Exists w).2 := by
  unfold IbguBuilder.Exists
  by_cases hv : (IbguBuilder.validate b).1 = false
  · simpa [hv] using hinv
  · rcases hget : b.Get w with ⟨⟨obj, err⟩, w1⟩
    rcases err with _ | e
    · simp [hv, hget, ibguInvariant]
    · have hobj : obj = none := by
        have hx := get_error_result b w
        rw [hget] at hx
        simpa using hx (by simp)
      subst hobj
      simp [hv, hget, ibguInvariant]

theorem exists_false_object (b : IbguBuilder) (w : World)
    (hv : (IbguBuilder.validate b).1 = true) (hf : (b.Exists w).1.2 = false) :
    (b.Exists w).1.1.Object = none := by
  unfold IbguBuilder.Exists at hf ⊢
  rcases hget : b.Get w with ⟨⟨obj, err⟩, w1⟩
  simp [hv, hget] at hf ⊢
  have herr : err ≠ none := by
    intro hn
    rw [hn] at hf
    simp at hf
  have hx := get_error_result b w
  rw [hget] at hx
  simpa using hx (by simpa using herr)

theorem create_preserves_invariant (b : IbguBuilder) (w : World)
    (hinv : ibguInvariant b w) :
    ibguInvariant (b.Create w).1.1 (b.Create w).2 := by
  unfold IbguBuilder.Create
  rcases hv : IbguBuilder.validate b with ⟨fl, verr⟩
  rcases fl
  · simpa [hv] using hinv
  · rcases hex : b.Exists w with ⟨⟨b1, flag⟩, w1⟩
    have hinv1 : ibguInvariant b1 w1 := by
      have hp := exists_preserves_invariant b w hinv
      rw [hex] at hp
      exact hp
    rcases flag
    · have hobj : b1.Object = none := by
        have hx := exists_false_object b w (by rw [hv]) (by rw [hex])
        rw [hex] at hx
        exact hx
      rcases hcc : clientCreate w1 b1.Definition with ⟨cerr, w2⟩
      rcases cerr with _ | e
      · have hgh := clientCreate_success_ghost w1 b1.Definition (by rw [hcc])
        rw [hcc] at hgh
        simp [hv, hex, hcc, ibguInvariant]
        right
        right
        simpa using hgh.symm
      · simp [hv, hex, hcc, ibguInvariant, hobj]
    · simpa [hv, hex] using hinv1

theorem delete_preserves_invariant (b : IbguBuilder) (w : World)
    (hinv : ibguInvariant b w) :
    ibguInvariant (b.Delete w).1.1 (b.Delete w).2 := by
  unfold IbguBuilder.Delete
  rcases hv : IbguBuilder.validate b with ⟨fl, verr⟩
  rcases fl
  · simpa [hv] using hinv
  · rcases hex : b.Exists w with ⟨⟨b1, flag⟩, w1⟩
    have hinv1 : ibguInvariant b1 w1 := by
      have hp := exists_preserves_invariant b w hinv
      rw [hex] at hp
      exact hp
    rcases flag
    · simp [hv, hex, ibguInvariant]
    · rcases hcd : clientDelete w1 b1.Object with ⟨derr, w2⟩
      have hgh := clientDelete_ghosts w1 b1.Object
      rw [hcd] at hgh
      rcases derr with _ | e
      · simp [hv, hex, hcd, ibguInvariant]
      · simp [hv, hex, hcd]
        unfold ibguInvariant at hinv1 ⊢
        have h1 : w2.lastExistsRead = w1.lastExistsRead := by simpa using hgh.1
        have h2 : w2.lastCreateSubmit = w1.lastCreateSubmit := by simpa using hgh.2
        rw [h1, h2]
        exact hinv1

/-- C6 counterexample: starting from a state satisfying the claimed invariant
(Object nil, no successful read yet), a successful `Create` on an empty
cluster sets Object to the Definition although no successful cluster read ever
happened, so Object is neither nil nor the most recent successful read. -/
theorem ibgu_object_read_invariant_violated :
    ibguClaimInvariant validBuilder emptyWorld ∧
    ¬ ibguClaimInvariant (stepIbgu IbguOp.createOp (validBuilder, emptyWorld)).1
        (stepIbgu IbguOp.createOp (validBuilder, emptyWorld)).2 := by
  constructor
  · intro _
    rfl
  · intro hinv
    exact absurd (hinv (by decide)) (by decide)

/-- C6 amended: every operation preserves the invariant that Object is nil, or
holds the value stored by the most recent successful fetch inside `Exists`, or
holds the Definition submitted by the most recent successful `Create`; and
construction always starts with Object nil. -/
theorem ibgu_object_provenance_invariant (op : IbguOp) (b : IbguBuilder)
    (w : World) (hinv : ibguInvariant b w) :
    ibguInvariant (stepIbgu op (b, w)).1 (stepIbgu op (b, w)).2 ∧
    (∀ s name nsname b0, NewIbguBuilder s name nsname = some b0 →
       b0.Object = none) := by
  constructor
  · cases op with
    | withClusterLabelSelectors labels =>
      simpa [stepIbgu, ibguInvariant, withClusterLabelSelectors_object] using hinv
    | withSeedImageRef img ver =>
      simpa [stepIbgu, ibguInvariant, withSeedImageRef_object] using hinv
    | withOadpContent n ns =>
      simpa [stepIbgu, ibguInvariant, withOadpContent_object] using hinv
    | withPlan a mc t =>
      simpa [stepIbgu, ibguInvariant, withPlan_object] using hinv
    | getOp =>
      have hg := get_ghosts b w
      unfold ibguInvariant at hinv ⊢
      simp only [stepIbgu]
      rw [hg.1, hg.2]
      exact hinv
    | existsOp =>
      have hp := exists_preserves_invariant b w hinv
      rcases hex : b.Exists w with ⟨⟨b1, flag⟩, w1⟩
      rw [hex] at hp
      simpa [stepIbgu, hex] using hp
    | createOp =>
      have hp := create_preserves_invariant b w hinv
      rcases hcr : b.Create w with ⟨⟨b1, err⟩, w1⟩
      rw [hcr] at hp
      simpa [stepIbgu, hcr] using hp
    | deleteOp =>
      have hp := delete_preserves_invariant b w hinv
      rcases hdl : b.Delete w with ⟨⟨b1, err⟩, w1⟩
      rw [hdl] at hp
      simpa [stepIbgu, hdl] using hp
  · intro s name nsname b0 hb0
    rcases s with _ | st
    · simp [NewIbguBuilder] at hb0
    · by_cases hf : st.attachSchemeFails
      · simp [NewIbguBuilder, hf] at hb0
      · by_cases hn : name = "" <;> by_cases hns : nsname = "" <;>
          simp [NewIbguBuilder, hf, hn, hns] at hb0 <;> simp [← hb0]

theorem ibgu_object_provenance_invariant_witness :
    ibguInvariant validBuilder emptyWorld ∧
    ibguInvariant (stepIbgu IbguOp.createOp (validBuilder, emptyWorld)).1
      (stepIbgu IbguOp.createOp (validBuilder, emptyWorld)).2 :=
  ⟨Or.inl rfl,
   (ibgu_object_provenance_invariant IbguOp.createOp validBuilder emptyWorld
      (Or.inl rfl)).1⟩
